import Mathlib

/-!
# matic-jagar `config` package: load / validate pipeline

A shallow embedding of `src/config/config.go`:

* the configuration schema (`Telegram` … `Config`) with the struct tags written in the source,
* `Config.Validate`, which dispatches to the struct validator (`Struct` / `StructExcept`),
* `ReadFromFile`, which resolves the search path, reads, unmarshals and validates.

The imported packages (validator.v9, viper, logrus, os/user, path) are outside the source
tree; the few operations the program calls are modelled here, their undetermined behaviour
(what a constraint tag means, what the file system holds, how a file parses) is a parameter.
-/

set_option autoImplicit false

namespace config

/-! ## Schema (config.go, lines 12-137) -/

/-- Go `float64`, carried as its IEEE-754 bit pattern: the package stores it, never computes. -/
structure Float64 where
  bits : Nat
deriving DecidableEq, Repr

/-- Telegram bot details struct. -/
structure Telegram where
  BotToken : String
  ChatID : Int
deriving DecidableEq, Repr

/-- SendGrid stores sendgrid API credentials. -/
structure SendGrid where
  Token : String
  ReceiverEmailAddress : String
  SendgridEmail : String
  SendgridName : String
deriving DecidableEq, Repr

/-- Scraper defines the time intervals for multiple scrapers to fetch the data. -/
structure Scraper where
  Rate : String
  ValidatorRate : String
  ContractRate : String
  CommandsRate : String
deriving DecidableEq, Repr

/-- InfluxDB stores influxDB credentials. -/
structure InfluxDB where
  Port : String
  IP : String
  Database : String
  Username : String
  Password : String
deriving DecidableEq, Repr

/-- Endpoints defines multiple API base-urls to fetch the data. -/
structure Endpoints where
  EthRPCEndpoint : String
  BorRPCEndpoint : String
  BorExternalRPC : String
  HeimdallRPCEndpoint : String
  HeimdallLCDEndpoint : String
  HeimdallExternalRPC : String
  PolygonStakingEndpoint : String
deriving DecidableEq, Repr

/-- ValDetails stores the validator meta details. -/
structure ValDetails where
  ValidatorHexAddress : String
  SignerAddress : String
  ValidatorName : String
  StakeManagerContract : String
  ValidatorNumber : String
deriving DecidableEq, Repr

/-- EnableAlerts holds options to enable/disable alerts. -/
structure EnableAlerts where
  EnableTelegramAlerts : Bool
  EnableEmailAlerts : Bool
deriving DecidableEq, Repr

/-- RegularStatusAlerts defines time-slots to receive validator status alerts. -/
structure RegularStatusAlerts where
  AlertTimings : List String
deriving DecidableEq, Repr

/-- AlerterPreferences stores individual alert settings. -/
structure AlerterPreferences where
  BalanceChangeAlerts : String
  VotingPowerAlerts : String
  ProposalAlerts : String
  BlockDiffAlerts : String
  MissedBlockAlerts : String
  NumPeersAlerts : String
  NodeSyncAlert : String
  NodeStatusAlert : String
  EthLowBalanceAlert : String
deriving DecidableEq, Repr

/-- AlertingThreshold defines threshold conditions for the alert cases. -/
structure AlertingThreshold where
  NumPeersThreshold : Int
  MissedBlocksThreshold : Int
  BlockDiffThreshold : Int
  EthBalanceThreshold : Float64
deriving DecidableEq, Repr

/-- Config defines all the configurations required for the app. -/
structure Config where
  Endpoints : Endpoints
  ValDetails : ValDetails
  EnableAlerts : EnableAlerts
  RegularStatusAlerts : RegularStatusAlerts
  AlerterPreferences : AlerterPreferences
  AlertingThresholds : AlertingThreshold
  Scraper : Scraper
  Telegram : Telegram
  SendGrid : SendGrid
  InfluxDB : InfluxDB
deriving DecidableEq, Repr

/-- The zero value of `Config` (`var cfg Config`). -/
def Config.zero : Config :=
  { Endpoints := ⟨"", "", "", "", "", "", ""⟩
    ValDetails := ⟨"", "", "", "", ""⟩
    EnableAlerts := ⟨false, false⟩
    RegularStatusAlerts := ⟨[]⟩
    AlerterPreferences := ⟨"", "", "", "", "", "", "", "", ""⟩
    AlertingThresholds := ⟨0, 0, 0, ⟨0⟩⟩
    Scraper := ⟨"", "", "", ""⟩
    Telegram := ⟨"", 0⟩
    SendGrid := ⟨"", "", "", ""⟩
    InfluxDB := ⟨"", "", "", "", ""⟩ }

/-! ## Reflection: struct values with their field names and struct tags -/

/-- A struct tag as its list of `key:"value"` pairs. -/
abbrev StructTag := List (String × String)

/-- The value stored under `key` in a struct tag, the empty string when the key is absent
(`reflect.StructTag.Get`). -/
def StructTag.Get (t : StructTag) (key : String) : String :=
  (t.lookup key).getD ""

/-- The only tag key the source writes: `mapstructure:"k"`. -/
def ms (k : String) : StructTag := [("mapstructure", k)]

/-- A Go value as reflection sees it: scalars, a string slice, or a named struct with its
fields in declaration order, each with name, struct tag and value. -/
inductive Value where
  | string (s : String)
  | int64 (i : Int)
  | float64 (f : Float64)
  | bool (b : Bool)
  | strings (l : List String)
  | struct (typeName : String) (fields : List (String × StructTag × Value))

/-- Reflection of `Telegram` (lines 14-19). -/
def Telegram.reflect (t : Telegram) : Value :=
  .struct "Telegram"
    [ ("BotToken", ms "tg_bot_token", .string t.BotToken),
      ("ChatID", ms "tg_chat_id", .int64 t.ChatID) ]

/-- Reflection of `SendGrid` (lines 22-31). -/
def SendGrid.reflect (s : SendGrid) : Value :=
  .struct "SendGrid"
    [ ("Token", ms "sendgrid_token", .string s.Token),
      ("ReceiverEmailAddress", ms "receiver_email_address", .string s.ReceiverEmailAddress),
      ("SendgridEmail", ms "account_email", .string s.SendgridEmail),
      ("SendgridName", ms "sendgrid_account_name", .string s.SendgridName) ]

/-- Reflection of `Scraper` (lines 34-43). -/
def Scraper.reflect (s : Scraper) : Value :=
  .struct "Scraper"
    [ ("Rate", ms "rate", .string s.Rate),
      ("ValidatorRate", ms "validator_rate", .string s.ValidatorRate),
      ("ContractRate", ms "contract_rate", .string s.ContractRate),
      ("CommandsRate", ms "tg_commnads_rate", .string s.CommandsRate) ]

/-- Reflection of `InfluxDB` (lines 46-57). -/
def InfluxDB.reflect (d : InfluxDB) : Value :=
  .struct "InfluxDB"
    [ ("Port", ms "port", .string d.Port),
      ("IP", ms "ip", .string d.IP),
      ("Database", ms "database", .string d.Database),
      ("Username", ms "username", .string d.Username),
      ("Password", ms "password", .string d.Password) ]

/-- Reflection of `Endpoints` (lines 60-68). -/
def Endpoints.reflect (e : Endpoints) : Value :=
  .struct "Endpoints"
    [ ("EthRPCEndpoint", ms "eth_rpc_endpoint", .string e.EthRPCEndpoint),
      ("BorRPCEndpoint", ms "bor_rpc_end_point", .string e.BorRPCEndpoint),
      ("BorExternalRPC", ms "bor_external_rpc", .string e.BorExternalRPC),
      ("HeimdallRPCEndpoint", ms "heimdall_rpc_endpoint", .string e.HeimdallRPCEndpoint),
      ("HeimdallLCDEndpoint", ms "heimdall_lcd_endpoint", .string e.HeimdallLCDEndpoint),
      ("HeimdallExternalRPC", ms "heimdall_external_rpc", .string e.HeimdallExternalRPC),
      ("PolygonStakingEndpoint", ms "polygon_staking_endpoint",
        .string e.PolygonStakingEndpoint) ]

/-- Reflection of `ValDetails` (lines 71-82). -/
def ValDetails.reflect (d : ValDetails) : Value :=
  .struct "ValDetails"
    [ ("ValidatorHexAddress", ms "validator_hex_addr", .string d.ValidatorHexAddress),
      ("SignerAddress", ms "signer_address", .string d.SignerAddress),
      ("ValidatorName", ms "validator_name", .string d.ValidatorName),
      ("StakeManagerContract", ms "stake_manager_contract", .string d.StakeManagerContract),
      ("ValidatorNumber", ms "validator_number", .string d.ValidatorNumber) ]

/-- Reflection of `EnableAlerts` (lines 85-88). -/
def EnableAlerts.reflect (a : EnableAlerts) : Value :=
  .struct "EnableAlerts"
    [ ("EnableTelegramAlerts", ms "enable_telegram_alerts", .bool a.EnableTelegramAlerts),
      ("EnableEmailAlerts", ms "enable_email_alerts", .bool a.EnableEmailAlerts) ]

/-- Reflection of `RegularStatusAlerts` (lines 91-94). -/
def RegularStatusAlerts.reflect (a : RegularStatusAlerts) : Value :=
  .struct "RegularStatusAlerts"
    [ ("AlertTimings", ms "alert_timings", .strings a.AlertTimings) ]

/-- Reflection of `AlerterPreferences` (lines 97-107). -/
def AlerterPreferences.reflect (p : AlerterPreferences) : Value :=
  .struct "AlerterPreferences"
    [ ("BalanceChangeAlerts", ms "balance_change_alerts", .string p.BalanceChangeAlerts),
      ("VotingPowerAlerts", ms "voting_power_alerts", .string p.VotingPowerAlerts),
      ("ProposalAlerts", ms "proposal_alerts", .string p.ProposalAlerts),
      ("BlockDiffAlerts", ms "block_diff_alerts", .string p.BlockDiffAlerts),
      ("MissedBlockAlerts", ms "missed_block_alerts", .string p.MissedBlockAlerts),
      ("NumPeersAlerts", ms "num_peers_alerts", .string p.NumPeersAlerts),
      ("NodeSyncAlert", ms "node_sync_alert", .string p.NodeSyncAlert),
      ("NodeStatusAlert", ms "node_status_alert", .string p.NodeStatusAlert),
      ("EthLowBalanceAlert", ms "eth_low_balance_alert", .string p.EthLowBalanceAlert) ]

/-- Reflection of `AlertingThreshold` (lines 111-122). -/
def AlertingThreshold.reflect (t : AlertingThreshold) : Value :=
  .struct "AlertingThreshold"
    [ ("NumPeersThreshold", ms "num_peers_threshold", .int64 t.NumPeersThreshold),
      ("MissedBlocksThreshold", ms "missed_blocks_threshold", .int64 t.MissedBlocksThreshold),
      ("BlockDiffThreshold", ms "block_diff_threshold", .int64 t.BlockDiffThreshold),
      ("EthBalanceThreshold", ms "eth_balance_threshold", .float64 t.EthBalanceThreshold) ]

/-- Reflection of `Config` (lines 125-136). -/
def Config.reflect (c : Config) : Value :=
  .struct "Config"
    [ ("Endpoints", ms "rpc_and_lcd_endpoints", c.Endpoints.reflect),
      ("ValDetails", ms "validator_details", c.ValDetails.reflect),
      ("EnableAlerts", ms "enable_alerts", c.EnableAlerts.reflect),
      ("RegularStatusAlerts", ms "regular_status_alerts", c.RegularStatusAlerts.reflect),
      ("AlerterPreferences", ms "alerter_preferences", c.AlerterPreferences.reflect),
      ("AlertingThresholds", ms "alerting_threholds", c.AlertingThresholds.reflect),
      ("Scraper", ms "scraper", c.Scraper.reflect),
      ("Telegram", ms "telegram", c.Telegram.reflect),
      ("SendGrid", ms "sendgrid", c.SendGrid.reflect),
      ("InfluxDB", ms "influxdb", c.InfluxDB.reflect) ]

/-- The top-level field names of `Config`, in declaration order. -/
def Config.fieldNames : List String :=
  ["Endpoints", "ValDetails", "EnableAlerts", "RegularStatusAlerts", "AlerterPreferences",
   "AlertingThresholds", "Scraper", "Telegram", "SendGrid", "InfluxDB"]

/-- The fields of a struct value; a non-struct has none. -/
def Value.fields : Value → List (String × StructTag × Value)
  | .struct _ fs => fs
  | _ => []

/-- The field-to-key table of a struct: each field name with its `mapstructure` key. -/
def Value.keyTable (v : Value) : List (String × String) :=
  v.fields.map (fun f => (f.1, f.2.1.Get "mapstructure"))

/-- The values of the fields of a struct, in declaration order. -/
def Value.fieldValues (v : Value) : List Value :=
  v.fields.map (fun f => f.2.2)

/-- The field-to-key tables of the schema: the table of `Config` itself followed by the
tables of its ten section types, in declaration order. -/
def Config.keyTables (c : Config) : List (List (String × String)) :=
  (c.reflect :: c.reflect.fieldValues).map Value.keyTable

/-! ## The struct validator (package validator.v9, imported at line 9) -/

/-- One violated constraint: the namespace of the field ("Config.Telegram.BotToken"), the
field name, the constraint tag that failed and the offending value. -/
structure FieldError where
  ns : String
  field : String
  tag : String
  value : Value

/-- The Go `error` values `Validate` can return; `nil` is `none : Option Error`. -/
inductive Error where
  | InvalidValidationError
  | ValidationErrors (errs : List FieldError)

/-- The violations an error value names. -/
def violations : Option Error → List FieldError
  | some (.ValidationErrors errs) => errs
  | _ => []

/-- The meaning of constraint tags: `rules tag v` holds when the value `v` satisfies the
constraint tag `tag`. The set of rules the validator package registers is outside the
source tree, so it is a parameter throughout. -/
abbrev Rules := String → Value → Bool

/-- Modelled from the spec: the validator instance of the imported validator.v9 package,
"constraints are declared per-field in the schema, not hardcoded in this component": it
holds the tag key under which constraints are declared and the meaning of the rules. -/
structure Validate where
  tagName : String
  rules : Rules

/-- Modelled from the spec: `validator.New()` of the imported package; constraints are
read from the `validate` key of a struct tag. -/
def New (rules : Rules) : Validate :=
  { tagName := "validate", rules := rules }

/-- Modelled from the spec: the state of one validation pass of the imported package:
whether the pass is partial, whether the listed names are exclusions, and the listed
fully-qualified names. -/
structure validate where
  v : Validate
  isPartial : Bool
  hasExcludes : Bool
  includeExclude : List String

/-- Modelled from the spec: the traversal of the imported validator package, "validation
logic iterates declared constraints and skips any whose owning field is in the exclusion
set", reporting "every violated constraint (field path, rule violated, offending value) —
not just the first failure encountered". Fields are visited in declaration order; a field
whose qualified name `structNs ++ name` is excluded is skipped whole; a struct-valued
field is descended into; any other field is checked against its constraint tag when it
declares one. A field tagged `-` is never visited. -/
def validate.validateStruct (vd : validate) (structNs : String) : Value → List FieldError
  | .struct name fields =>
    go (if structNs = "" ∧ name ≠ "" then name ++ "." else structNs) fields
  | _ => []
where
  /-- The loop over the fields of one struct. -/
  go (structNs : String) : List (String × StructTag × Value) → List FieldError
  | [] => []
  | (name, tag, val) :: rest =>
    (if tag.Get vd.v.tagName = "-" then []
     else if vd.isPartial ∧
        (((structNs ++ name) ∈ vd.includeExclude ∧ vd.hasExcludes) ∨
         ((structNs ++ name) ∉ vd.includeExclude ∧ ¬ vd.hasExcludes)) then []
     else
       match val with
       | .struct n fs => validate.validateStruct vd (structNs ++ name ++ ".") (.struct n fs)
       | leaf =>
         if tag.Get vd.v.tagName = "" then []
         else if vd.v.rules (tag.Get vd.v.tagName) leaf then []
         else [{ ns := structNs ++ name, field := name,
                 tag := tag.Get vd.v.tagName, value := leaf }])
    ++ go structNs rest

/-- The error value of a finished pass: `nil` when nothing was recorded. -/
def Error.ofList : List FieldError → Option Error
  | [] => none
  | e :: es => some (.ValidationErrors (e :: es))

/-- Modelled from the spec: `Struct` of the imported validator package, "validates every
field of Config against its declared constraint tags". The argument is a pointer to a
struct (`none` is the nil pointer); anything that is not a struct is rejected. -/
def Validate.Struct (v : Validate) (s : Option Value) : Option Error :=
  match s with
  | some (.struct name fields) =>
    Error.ofList
      (validate.validateStruct
        { v := v, isPartial := false, hasExcludes := false, includeExclude := [] }
        "" (.struct name fields))
  | _ => some .InvalidValidationError

/-- Modelled from the spec: `StructExcept` of the imported validator package, "validates
all fields except the named ones, skipping constraint checks entirely for excluded
fields". Each given name is qualified with the name of the struct type. -/
def Validate.StructExcept (v : Validate) (s : Option Value) (fields : List String) :
    Option Error :=
  match s with
  | some (.struct name fs) =>
    Error.ofList
      (validate.validateStruct
        { v := v, isPartial := true, hasExcludes := true,
          includeExclude := fields.map (fun key => name ++ "." ++ key) }
        "" (.struct name fs))
  | _ => some .InvalidValidationError

/-! ## `Config.Validate` (config.go, lines 169-176) -/

/-- Method `func (c *Config) Validate(e ...string) error`. The receiver is a pointer (`none` is
nil); the result pairs the Config behind the pointer after the call with the returned
error. The method reads the Config through the validator and never assigns to it. -/
def Config.Validate (rules : Rules) (c : Option Config) (e : List String) :
    Option Config × Option Error :=
  let v := New rules
  if e.length = 0 then
    (c, v.Struct (c.map Config.reflect))
  else
    (c, v.StructExcept (c.map Config.reflect) e)

/-- A violation is located at or under the top-level field `F` of `Config` when its
namespace is `Config.F` or starts with `Config.F.`. -/
def FieldError.under (err : FieldError) (F : String) : Bool :=
  err.ns == "Config." ++ F || ("Config." ++ F ++ ".").data.isPrefixOf err.ns.data

/-- A sample meaning of two constraint tags, as the validator package documents them:
`required` fails on the zero value of the field, `gte=0` fails on a negative number;
any other tag is taken to hold. -/
def Rules.sample : Rules := fun tag v =>
  if tag = "required" then
    match v with
    | .string s => s ≠ ""
    | .int64 i => i ≠ 0
    | .float64 f => f.bits ≠ 0
    | .bool b => b
    | .strings l => l ≠ []
    | .struct _ _ => true
  else if tag = "gte=0" then
    match v with
    | .int64 i => 0 ≤ i
    | _ => true
  else true

/-- The configuration of the spec's example scenario: `validator_hex_addr = "0xABC"`,
`num_peers_threshold = -5`, `tg_bot_token` omitted, everything else zero. -/
def Config.scenario : Config :=
  { Config.zero with
    ValDetails := { Config.zero.ValDetails with ValidatorHexAddress := "0xABC" }
    AlertingThresholds := { Config.zero.AlertingThresholds with NumPeersThreshold := -5 }
    Telegram := { Config.zero.Telegram with BotToken := "" } }

/-- No field of the value, at any depth, declares anything under the tag key `key`. -/
def Value.untagged (key : String) : Value → Bool
  | .struct _ fs => go fs
  | _ => true
where
  /-- The fields of one struct. -/
  go : List (String × StructTag × Value) → Bool
  | [] => true
  | (_, tag, v) :: rest => (tag.Get key == "") && Value.untagged key v && go rest

namespace Spec

/-- The spec's reading of the schema, "constraints are declared per-field in the schema":
every declared constraint below a struct, as (field path, constraint tag, value), in
declaration order; a field tagged `-` declares none, nor does anything below it. -/
def declaredConstraints (tagKey : String) (path : String) :
    List (String × StructTag × Value) → List FieldError
  | [] => []
  | (name, tag, val) :: rest =>
    (if tag.Get tagKey = "-" then []
     else match val with
       | .struct _ fs => declaredConstraints tagKey (path ++ name ++ ".") fs
       | leaf =>
         if tag.Get tagKey = "" then []
         else [{ ns := path ++ name, field := name, tag := tag.Get tagKey, value := leaf }])
    ++ declaredConstraints tagKey path rest

/-- The spec's reading of a full validation, "a failure that aggregates every violated
constraint": the declared constraints of `Config` that the value does not satisfy. -/
def violations (rules : Rules) (c : Config) : List FieldError :=
  (declaredConstraints "validate" "Config." c.reflect.fields).filter
    (fun k => !rules k.tag k.value)

end Spec

namespace path

/-- The elements of a slash-separated path: the pieces between the `/` bytes. -/
def split : List Char → List (List Char)
  | [] => [[]]
  | c :: cs =>
    if c = '/' then [] :: split cs
    else
      match split cs with
      | [] => [[c]]
      | h :: t => (c :: h) :: t

/-- One element of the lexical cleaning, over the elements kept so far (innermost first):
an empty element and `.` are dropped; `..` removes the element before it, is dropped at
the root, and is kept where a relative path has nothing left to remove. -/
def cleanStep (rooted : Bool) (out : List (List Char)) (elem : List Char) :
    List (List Char) :=
  if elem = [] ∨ elem = ['.'] then out
  else if elem = ['.', '.'] then
    match out with
    | [] => if rooted then [] else [elem]
    | top :: below => if top = ['.', '.'] then elem :: out else below
  else elem :: out

/-- Function `path.Clean`: the shortest path name equivalent to `p` by purely lexical processing;
the empty path cleans to `.`. -/
def Clean (p : String) : String :=
  if p = "" then "."
  else
    let rooted : Bool := p.data.head? = some '/'
    let out := ((split p.data).foldl (cleanStep rooted) []).reverse
    if rooted then String.mk ('/' :: List.intercalate ['/'] out)
    else if out = [] then "."
    else String.mk (List.intercalate ['/'] out)

/-- Function `path.Join`: joins the elements with slashes, ignoring empty elements, and cleans the
result; all elements empty gives the empty string. -/
def Join (elem : List String) : String :=
  if (elem.map String.length).sum = 0 then ""
  else
    Clean (elem.foldl
      (fun buf e =>
        if buf ≠ "" ∨ e ≠ "" then (if buf ≠ "" then buf ++ "/" else buf) ++ e else buf)
      "")

end path

/-! ## The environment of `ReadFromFile` -/

/-- The part of `os/user.User` the program reads. -/
structure User where
  HomeDir : String
deriving DecidableEq, Repr

/-- What a configuration file parses to: nested key/value tables. -/
inductive Tree where
  | leaf (raw : String)
  | table (entries : List (String × Tree))

/-- Everything `ReadFromFile` takes from outside the package: the result of
`user.Current()`, the content of the configuration file with a given base name in a given
directory (if there is one), how the configuration library parses a file and decodes the
parsed tree into `Config`, and the meaning of the validator's rules. -/
structure Env where
  Current : Except String User
  configFile : String → String → Option String
  parse : String → Except String Tree
  decode : Tree → Except String Config
  rules : Rules

/-- The errors of `ReadInConfig`. -/
inductive ReadError where
  | ConfigFileNotFoundError (name : String) (paths : List String)
  | ConfigParseError (msg : String)

/-- Modelled from the spec: the configuration-library instance (imported package viper):
"an ordered list of candidate directories", "a fixed base filename", and the parsed
content once read. -/
structure Viper where
  configPaths : List String
  configName : String
  config : Option Tree

namespace Viper

/-- Modelled from the spec: `viper.New()`, no candidate directory yet. -/
def New : Viper :=
  { configPaths := [], configName := "config", config := none }

/-- Modelled from the spec: `AddConfigPath` of the imported package viper appends a
directory to the "ordered list of candidate directories". -/
def AddConfigPath (v : Viper) (dir : String) : Viper :=
  { v with configPaths := v.configPaths ++ [dir] }

/-- Modelled from the spec: `SetConfigName` of the imported package viper sets the "fixed
base filename". -/
def SetConfigName (v : Viper) (name : String) : Viper :=
  { v with configName := name }

/-- Modelled from the spec: the search of the imported package viper, "searches candidate
directories in order for the named file; on first match" that file is taken. -/
def findConfigFile (env : Env) (v : Viper) : Option String :=
  v.configPaths.findSome? (fun dir => env.configFile dir v.configName)

/-- Modelled from the spec: `ReadInConfig` of the imported package viper: "no file found
in any candidate directory" is an error, "malformed content" is an error, otherwise the
parsed tree is kept. -/
def ReadInConfig (env : Env) (v : Viper) : Except ReadError Viper :=
  match v.findConfigFile env with
  | none => .error (.ConfigFileNotFoundError v.configName v.configPaths)
  | some content =>
    match env.parse content with
    | .error msg => .error (.ConfigParseError msg)
    | .ok tree => .ok { v with config := some tree }

/-- Modelled from the spec: `Unmarshal` of the imported package viper "deserializes that
tree into the Config structure"; a type mismatch is an error. -/
def Unmarshal (env : Env) (v : Viper) : Except String Config :=
  env.decode (v.config.getD (.table []))

end Viper

/-- Why the process was terminated. -/
inductive Fatal where
  | user (err : String)
  | read (err : ReadError)
  | unmarshal (err : String)
  | validation (err : Error)

/-- How a call ends: the process exits with a status (`log.Fatal`, `log.Fatalf`), or the
call returns. -/
inductive Outcome (α : Type) where
  | exit (status : Nat) (why : Fatal)
  | ret (a : α)

/-! ## `ReadFromFile` (config.go, lines 139-167) -/

/-- Lines 146-152: the configuration-library instance with its two candidate directories
and base name. -/
def ReadFromFile.viper (usr : User) : Viper :=
  let configPath := path.Join [usr.HomeDir, ".matic-jagar/config/"]
  let v := Viper.New
  let v := v.AddConfigPath "."
  let v := v.AddConfigPath configPath
  v.SetConfigName "config"

/-- Function `func ReadFromFile() (*Config, error)`: every failure goes through `log.Fatal`
or `log.Fatalf`, which end the process with status 1; the only return is `&cfg, nil`. The
`log.Printf` of line 147 writes a log line and has no part in the result. -/
def ReadFromFile (env : Env) : Outcome (Option Config × Option Error) :=
  match env.Current with
  | .error err => .exit 1 (.user err)
  | .ok usr =>
    match (ReadFromFile.viper usr).ReadInConfig env with
    | .error err => .exit 1 (.read err)
    | .ok v =>
      match v.Unmarshal env with
      | .error err => .exit 1 (.unmarshal err)
      | .ok cfg =>
        match Config.Validate env.rules (some cfg) [] with
        | (_, some err) => .exit 1 (.validation err)
        | (cfg, none) => .ret (cfg, none)

/-- The failures of the environment the loader treats as fatal: the home-directory lookup
fails, or no file named `config` is in either search directory, or the file found does
not parse, or the parsed content does not decode into `Config`. -/
def Env.fails (env : Env) : Prop :=
  (∃ err, env.Current = .error err) ∨
  (∃ usr, env.Current = .ok usr ∧ env.configFile "." "config" = none ∧
    env.configFile (path.Join [usr.HomeDir, ".matic-jagar/config"]) "config" = none) ∨
  (∃ usr content err, env.Current = .ok usr ∧
    (ReadFromFile.viper usr).findConfigFile env = some content ∧
    env.parse content = .error err) ∨
  (∃ usr content tree err, env.Current = .ok usr ∧
    (ReadFromFile.viper usr).findConfigFile env = some content ∧
    env.parse content = .ok tree ∧ env.decode tree = .error err)

/-- An environment with a home directory and one well-formed file in the current
directory that decodes to the scenario configuration. -/
def Env.sample : Env :=
  { Current := .ok { HomeDir := "/home/alice" }
    configFile := fun dir name =>
      if dir = "." ∧ name = "config" then some "[telegram]" else none
    parse := fun _ => .ok (.table [])
    decode := fun _ => .ok Config.scenario
    rules := Rules.sample }

/-- An environment with a configuration file in the current directory and another one in
the home-relative directory; the first decodes to the scenario configuration, the second
to the zero configuration. -/
def Env.both : Env :=
  { Current := .ok { HomeDir := "/home/alice" }
    configFile := fun dir name =>
      if dir = "." ∧ name = "config" then some "here"
      else if dir = "/home/alice/.matic-jagar/config" ∧ name = "config" then some "there"
      else none
    parse := fun content =>
      if content = "here" then .ok (.table [("source", .leaf "here")]) else .ok (.table [])
    decode := fun tree =>
      match tree with
      | .table (_ :: _) => .ok Config.scenario
      | _ => .ok Config.zero
    rules := Rules.sample }

/-- An environment with a home directory and no configuration file anywhere. -/
def Env.empty : Env :=
  { Env.sample with configFile := fun _ _ => none }

/-! ## Lemmas on the validator traversal -/

theorem append_dot_ne_empty_aux (a : String) : a ++ "/" ≠ "" := by
  intro h
  have h2 := congrArg String.length h
  rw [String.length_append] at h2
  have h3 : ("/".length : Nat) = 1 := by decide
  have h4 : ("".length : Nat) = 0 := by decide
  omega

theorem append_dot_ne_empty (a : String) : a ++ "." ≠ "" := by
  intro h
  have h2 := congrArg String.length h
  rw [String.length_append] at h2
  have h3 : (".".length : Nat) = 1 := by decide
  have h4 : ("".length : Nat) = 0 := by decide
  omega

/-- Below the top level the namespace is never empty, so a nested struct is traversed
under the namespace it is given. -/
theorem validateStruct_struct_of_ns (vd : validate) (ns n : String)
    (fs : List (String × StructTag × Value)) (h : ns ≠ "") :
    vd.validateStruct ns (.struct n fs) = validate.validateStruct.go vd ns fs := by
  rw [validate.validateStruct]
  simp [h]

/-- A field list that declares nothing under the validator's tag key yields no violation,
whatever the rules, the namespace and the exclusions. -/
theorem go_untagged (vd : validate) :
    ∀ (ns : String) (fs : List (String × StructTag × Value)),
      Value.untagged.go vd.v.tagName fs = true → validate.validateStruct.go vd ns fs = []
  | _, [], _ => by rw [validate.validateStruct.go]
  | ns, (name, tag, v) :: rest, h => by
    rw [Value.untagged.go] at h
    simp only [Bool.and_eq_true, beq_iff_eq] at h
    obtain ⟨⟨ht, hv⟩, hr⟩ := h
    have ih := go_untagged vd ns rest hr
    cases v with
    | struct n fs =>
      rw [Value.untagged] at hv
      rw [validate.validateStruct.go, ih,
        validateStruct_struct_of_ns vd _ n fs (append_dot_ne_empty _),
        go_untagged vd (ns ++ name ++ ".") fs hv]
      simp
    | _ => simp [validate.validateStruct.go, ih, ht]

/-- A value that declares nothing under the validator's tag key yields no violation. -/
theorem validateStruct_untagged (vd : validate) (ns : String) (v : Value)
    (h : v.untagged vd.v.tagName = true) : vd.validateStruct ns v = [] := by
  cases v with
  | struct n fs =>
    rw [Value.untagged] at h
    rw [validate.validateStruct]
    exact go_untagged vd _ fs h
  | _ => simp [validate.validateStruct]

/-- Excluding more names never adds a violation: the report under the larger exclusion
list is a sublist of the report under the smaller one. -/
theorem go_mono (v : Validate) (ex ex' : List String) (h : ex ⊆ ex') :
    ∀ (ns : String) (fs : List (String × StructTag × Value)),
      (validate.validateStruct.go
          { v := v, isPartial := true, hasExcludes := true, includeExclude := ex' } ns fs).Sublist
        (validate.validateStruct.go
          { v := v, isPartial := true, hasExcludes := true, includeExclude := ex } ns fs)
  | _, [] => by simp [validate.validateStruct.go]
  | ns, (name, tag, val) :: rest => by
    have ih := go_mono v ex ex' h ns rest
    cases val with
    | struct n fs =>
      rw [validate.validateStruct.go, validate.validateStruct.go]
      refine List.Sublist.append ?_ ih
      by_cases ht : tag.Get v.tagName = "-"
      · simp [ht]
      by_cases hin' : ns ++ name ∈ ex'
      · simp [ht, hin']
      have hin : ns ++ name ∉ ex := fun hx => hin' (h hx)
      simp only [ht, hin, hin', if_false, and_false, false_and, or_false, not_true_eq_false,
        and_true]
      rw [validateStruct_struct_of_ns _ _ n fs (append_dot_ne_empty _),
        validateStruct_struct_of_ns _ _ n fs (append_dot_ne_empty _)]
      exact go_mono v ex ex' h (ns ++ name ++ ".") fs
    | _ =>
      simp only [validate.validateStruct.go]
      refine List.Sublist.append ?_ ih
      by_cases ht : tag.Get v.tagName = "-"
      · simp [ht]
      by_cases hin' : ns ++ name ∈ ex'
      · simp [ht, hin']
      have hin : ns ++ name ∉ ex := fun hx => hin' (h hx)
      simp [ht, hin, hin']

/-- The two branches agree: a full pass is a partial pass with nothing excluded. -/
theorem go_except_nil (v : Validate) :
    ∀ (ns : String) (fs : List (String × StructTag × Value)),
      validate.validateStruct.go
          { v := v, isPartial := false, hasExcludes := false, includeExclude := [] } ns fs =
        validate.validateStruct.go
          { v := v, isPartial := true, hasExcludes := true, includeExclude := [] } ns fs
  | _, [] => by simp [validate.validateStruct.go]
  | ns, (name, tag, val) :: rest => by
    have ih := go_except_nil v ns rest
    cases val with
    | struct n fs =>
      rw [validate.validateStruct.go, validate.validateStruct.go, ih]
      simp only [List.not_mem_nil, false_and, and_false, or_false, if_false, Bool.false_eq_true]
      rw [validateStruct_struct_of_ns _ _ n fs (append_dot_ne_empty _),
        validateStruct_struct_of_ns _ _ n fs (append_dot_ne_empty _),
        go_except_nil v (ns ++ name ++ ".") fs]
      simp
    | _ => simp [validate.validateStruct.go, ih]

theorem violations_ofList (l : List FieldError) : violations (Error.ofList l) = l := by
  cases l <;> rfl

/-- The source declares no `validate` key in any struct tag of the schema. -/
theorem Config.reflect_untagged (c : Config) : c.reflect.untagged "validate" = true := by
  rfl

/-- On a non-nil receiver `Validate` leaves the Config as it is and returns nil. -/
theorem Config.Validate_some (rules : Rules) (c : Config) (e : List String) :
    Config.Validate rules (some c) e = (some c, none) := by
  have hu := Config.reflect_untagged c
  have hr : c.reflect = .struct "Config" c.reflect.fields := rfl
  unfold Config.Validate
  split
  · simp only [Option.map_some', Validate.Struct]
    rw [hr]
    simp only
    rw [validateStruct_untagged _ _ _ (by rw [← hr]; exact hu)]
    rfl
  · simp only [Option.map_some', Validate.StructExcept]
    rw [hr]
    simp only
    rw [validateStruct_untagged _ _ _ (by rw [← hr]; exact hu)]
    rfl

/-- On the nil receiver `Validate` reports an invalid argument. -/
theorem Config.Validate_nil (rules : Rules) (e : List String) :
    Config.Validate rules none e = (none, some .InvalidValidationError) := by
  unfold Config.Validate
  split <;> rfl

/-- The validator model does report violations where constraints are declared: on a struct
with a `required` string left empty and a nested `gte=0` number set to -5, a full pass
names both, and excluding the first field leaves the second. -/
theorem validateStruct_reports_declared :
    (violations ((New Rules.sample).Struct (some (.struct "T"
        [ ("A", [("validate", "required")], .string ""),
          ("B", [("json", "b")], .struct "B" [("X", [("validate", "gte=0")], .int64 (-5))]) ])))).map
      (fun err => err.ns) = ["T.A", "T.B.X"] ∧
    (violations ((New Rules.sample).StructExcept (some (.struct "T"
        [ ("A", [("validate", "required")], .string ""),
          ("B", [("json", "b")], .struct "B" [("X", [("validate", "gte=0")], .int64 (-5))]) ]))
        ["A"])).map (fun err => err.ns) = ["T.B.X"] := by
  decide

/-! ## Lemmas on path cleaning and the search -/

theorem path.split_ne_nil (l : List Char) : path.split l ≠ [] := by
  cases l with
  | nil => simp [path.split]
  | cons c cs =>
    rw [path.split]
    split
    · simp
    · split <;> simp

theorem path.split_append_slash (l : List Char) :
    path.split (l ++ ['/']) = path.split l ++ [[]] := by
  induction l with
  | nil => simp [path.split]
  | cons c cs ih =>
    rw [List.cons_append, path.split, path.split, ih]
    by_cases hc : c = '/'
    · simp [hc]
    · simp only [hc, if_false]
      cases hs : path.split cs with
      | nil => exact absurd hs (path.split_ne_nil cs)
      | cons a t => simp

/-- A trailing slash does not change what a non-empty path cleans to. -/
theorem path.Clean_append_slash (s : String) (h : s ≠ "") :
    path.Clean (s ++ "/") = path.Clean s := by
  have hne : s ++ "/" ≠ "" := append_dot_ne_empty_aux s
  have hd : (s ++ "/").data = s.data ++ ['/'] := by
    rw [String.data_append]
  have hdata : s.data ≠ [] := by
    intro h0
    apply h
    cases s
    simp_all
  have hhead : (s.data ++ ['/']).head? = s.data.head? := by
    cases hs : s.data with
    | nil => exact absurd hs hdata
    | cons a t => rfl
  unfold path.Clean
  simp only [h, hne, if_false, hd, hhead, path.split_append_slash, List.foldl_append,
    List.foldl_cons, List.foldl_nil]
  simp [path.cleanStep]

theorem String.length_ne_zero_of_ne_empty (t : String) (h : t ≠ "") : t.length ≠ 0 := by
  intro h0
  apply h
  cases t with
  | mk d =>
    have hd : d = [] := List.length_eq_zero.mp h0
    rw [hd]

theorem String.ne_empty_of_length_pos (t : String) (h : 0 < t.length) : t ≠ "" := by
  intro h0
  rw [h0] at h
  exact absurd h (by decide)

/-- Joining a directory with one non-empty element. -/
theorem path.Join_pair (H t : String) (ht : t ≠ "") :
    path.Join [H, t] = path.Clean ((if H = "" then "" else H ++ "/") ++ t) := by
  have hlen := String.length_ne_zero_of_ne_empty t ht
  unfold path.Join
  simp only [List.map_cons, List.map_nil, List.sum_cons, List.sum_nil, List.foldl_cons,
    List.foldl_nil]
  rw [if_neg (by omega)]
  by_cases hH : H = ""
  · subst hH
    simp [ht]
  · simp [hH]

/-- A trailing slash on the last element does not change the joined path. -/
theorem path.Join_trailing_slash (H t : String) (ht : t ≠ "") :
    path.Join [H, t ++ "/"] = path.Join [H, t] := by
  have hlen := String.length_ne_zero_of_ne_empty t ht
  rw [path.Join_pair H (t ++ "/") (append_dot_ne_empty_aux t), path.Join_pair H t ht,
    ← String.append_assoc]
  refine path.Clean_append_slash _ ?_
  apply String.ne_empty_of_length_pos
  rw [String.length_append]
  omega

/-- The home-relative search directory, with or without the trailing slash. -/
theorem path.Join_config_dir (H : String) :
    path.Join [H, ".matic-jagar/config/"] = path.Join [H, ".matic-jagar/config"] := by
  have hsplit : (".matic-jagar/config/" : String) = ".matic-jagar/config" ++ "/" := by decide
  rw [hsplit]
  exact path.Join_trailing_slash H _ (by decide)

/-- The two candidate directories and the base name `ReadFromFile` registers. -/
theorem ReadFromFile.viper_eq (usr : User) :
    ReadFromFile.viper usr =
      { configPaths := [".", path.Join [usr.HomeDir, ".matic-jagar/config"]],
        configName := "config", config := none } := by
  simp [ReadFromFile.viper, Viper.New, Viper.AddConfigPath, Viper.SetConfigName,
    path.Join_config_dir]

/-- Whatever the exclusion list, the violations `Validate` reports are those of one
partial pass over the fields of `Config` with the qualified exclusions: the branch taken
for an empty list agrees with the other one. -/
theorem Config.Validate_pass (rules : Rules) (c : Config) (e : List String) :
    violations (Config.Validate rules (some c) e).2 =
      validate.validateStruct.go
        { v := New rules, isPartial := true, hasExcludes := true,
          includeExclude := e.map (fun key => "Config" ++ "." ++ key) }
        "Config." c.reflect.fields := by
  have hr : c.reflect = .struct "Config" c.reflect.fields := rfl
  have hns : (if ("" : String) = "" ∧ ("Config" : String) ≠ "" then "Config" ++ "." else "") =
      "Config." := by decide
  unfold Config.Validate
  split
  · rename_i h0
    have he : e = [] := List.length_eq_zero.mp h0
    subst he
    simp only [Option.map_some', Validate.Struct]
    rw [hr]
    simp only [violations_ofList, validate.validateStruct, hns, List.map_nil]
    exact go_except_nil (New rules) "Config." c.reflect.fields
  · simp only [Option.map_some', Validate.StructExcept]
    rw [hr]
    simp only [violations_ofList, validate.validateStruct, hns]
    rfl

/-- Two dot-free names followed by a dot and anything: equal texts have equal names. -/
theorem dotfree_prefix_unique :
    ∀ (a b t x : List Char), '.' ∉ a → '.' ∉ b → a ++ '.' :: t = b ++ '.' :: x → a = b
  | [], [], _, _, _, _, _ => rfl
  | [], d :: b, _, _, _, hb, h => by
    simp only [List.nil_append, List.cons_append, List.cons.injEq] at h
    exact absurd (h.1 ▸ List.mem_cons_self _ _) hb
  | c :: a, [], _, _, ha, _, h => by
    simp only [List.nil_append, List.cons_append, List.cons.injEq] at h
    exact absurd (h.1 ▸ List.mem_cons_self _ _) ha
  | c :: a, d :: b, t, x, ha, hb, h => by
    simp only [List.cons_append, List.cons.injEq] at h
    have := dotfree_prefix_unique a b t x
      (fun hm => ha (List.mem_cons_of_mem _ hm)) (fun hm => hb (List.mem_cons_of_mem _ hm)) h.2
    rw [h.1, this]

/-- Every violation of a pass lies at a field that was not excluded, or below it: its
namespace is the namespace of the struct, the field name, and then nothing or a dot and
more. -/
theorem go_ns (vd : validate) (hp : vd.isPartial = true) (hx : vd.hasExcludes = true) :
    ∀ (ns : String) (fs : List (String × StructTag × Value)) (err : FieldError),
      err ∈ validate.validateStruct.go vd ns fs →
      ∃ f ∈ fs, ∃ tail : List Char,
        err.ns.data = ns.data ++ f.1.data ++ tail ∧
        (tail = [] ∨ ∃ t, tail = '.' :: t) ∧ ns ++ f.1 ∉ vd.includeExclude
  | _, [], err, h => by simp [validate.validateStruct.go] at h
  | ns, (name, tag, val) :: rest, err, h => by
    have ih := go_ns vd hp hx ns rest err
    cases val with
    | struct n fs =>
      rw [validate.validateStruct.go, List.mem_append] at h
      rcases h with h | h
      · by_cases ht : tag.Get vd.v.tagName = "-"
        · simp [ht] at h
        by_cases hin : ns ++ name ∈ vd.includeExclude
        · simp [ht, hin, hp, hx] at h
        simp only [ht, hin, hp, hx, if_false, and_false, false_and, or_false, and_true,
          not_true_eq_false] at h
        rw [validateStruct_struct_of_ns _ _ n fs (append_dot_ne_empty _)] at h
        obtain ⟨g, _, tail, hns, _, _⟩ := go_ns vd hp hx (ns ++ name ++ ".") fs err h
        refine ⟨(name, tag, .struct n fs), List.mem_cons_self _ _, '.' :: (g.1.data ++ tail),
          ?_, Or.inr ⟨_, rfl⟩, hin⟩
        rw [hns]
        simp [String.data_append]
      · obtain ⟨f, hf, rest'⟩ := ih h
        exact ⟨f, List.mem_cons_of_mem _ hf, rest'⟩
    | _ =>
      simp only [validate.validateStruct.go, List.mem_append] at h
      rcases h with h | h
      · by_cases ht : tag.Get vd.v.tagName = "-"
        · simp [ht] at h
        by_cases hin : ns ++ name ∈ vd.includeExclude
        · simp [ht, hin, hp, hx] at h
        refine ⟨_, List.mem_cons_self _ _, [], ?_, Or.inl rfl, hin⟩
        simp only [ht, hin, hp, hx, if_false, and_false, false_and, or_false, and_true,
          not_true_eq_false] at h
        split_ifs at h <;> simp at h
        rw [h]
        simp [String.data_append]
      · obtain ⟨f, hf, rest'⟩ := ih h
        exact ⟨f, List.mem_cons_of_mem _ hf, rest'⟩

/-- Exclusion puts a field out of the report: in a pass over the fields of `Config` that
excludes the dot-free name `F`, no violation lies at or under `F`, whatever constraints
the fields declare, provided the field names are dot-free. -/
theorem go_excluded (vd : validate) (hp : vd.isPartial = true) (hx : vd.hasExcludes = true)
    (F : String) (hF : '.' ∉ F.data) (hin : "Config." ++ F ∈ vd.includeExclude)
    (fs : List (String × StructTag × Value)) (hfs : ∀ f ∈ fs, '.' ∉ f.1.data)
    (err : FieldError) (h : err ∈ validate.validateStruct.go vd "Config." fs) :
    err.under F = false := by
  obtain ⟨f, hf, tail, hns, htail, hnot⟩ := go_ns vd hp hx "Config." fs err h
  have hne : f.1 ≠ F := fun he => hnot (he ▸ hin)
  have hG := hfs f hf
  have hdata : f.1.data ≠ F.data := fun he => hne (String.ext he)
  unfold FieldError.under
  rw [Bool.or_eq_false_iff]
  constructor
  · rw [beq_eq_false_iff_ne]
    intro he
    have he' := congrArg String.data he
    rw [hns, String.data_append, List.append_assoc] at he'
    have h2 := List.append_cancel_left he'
    rcases htail with ht | ⟨t, ht⟩
    · rw [ht, List.append_nil] at h2
      exact hdata h2
    · rw [ht] at h2
      exact hF (h2 ▸ (List.mem_append_right _ (List.mem_cons_self _ _)))
  · rw [Bool.eq_false_iff]
    intro hpre
    rw [List.isPrefixOf_iff_prefix] at hpre
    obtain ⟨x, hx'⟩ := hpre
    rw [hns] at hx'
    simp only [String.data_append, List.append_assoc] at hx'
    have h2 := List.append_cancel_left hx'
    rw [List.singleton_append] at h2
    rcases htail with ht | ⟨t, ht⟩
    · rw [ht, List.append_nil] at h2
      exact hG (h2 ▸ (List.mem_append_right _ (List.mem_cons_self _ _)))
    · rw [ht] at h2
      exact hdata (dotfree_prefix_unique _ _ _ _ hF hG h2).symm

/-- The top-level field names of `Config` contain no dot. -/
theorem Config.fieldNames_dotfree : ∀ n ∈ Config.fieldNames, '.' ∉ n.data := by
  decide

/-! ## The claims -/

/-- C1 (exclusion correctness): for every Config value `c` and every top-level field name
`F` of Config, `c.Validate(F)` reports no violation located at or under field `F`,
whatever the rules mean and whatever value `F` holds. -/
theorem Config.Validate_exclusion_correct (rules : Rules) (c : Config) (F : String)
    (hF : F ∈ Config.fieldNames) :
    (violations (Config.Validate rules (some c) [F]).2).all (fun err => !err.under F) = true := by
  rw [List.all_eq_true]
  intro err herr
  rw [Config.Validate_pass] at herr
  have hnames : c.reflect.fields.map (fun f => f.1) = Config.fieldNames := rfl
  have hfs : ∀ f ∈ c.reflect.fields, '.' ∉ f.1.data := fun f hf =>
    Config.fieldNames_dotfree f.1 (hnames ▸ List.mem_map_of_mem (fun f => f.1) hf)
  have hin : "Config." ++ F ∈ [F].map (fun key => "Config" ++ "." ++ key) := by
    have h0 : ("Config" : String) ++ "." = "Config." := by decide
    simp [h0]
  rw [go_excluded _ rfl rfl F (Config.fieldNames_dotfree F hF) hin _ hfs err herr]
  rfl

/-- C1 at a concrete input: the scenario configuration, whose bot token is empty,
validated with `Telegram` excluded. -/
theorem Config.Validate_exclusion_correct_witness :
    "Telegram" ∈ Config.fieldNames ∧
    (violations (Config.Validate Rules.sample (some Config.scenario) ["Telegram"]).2).all
      (fun err => !err.under "Telegram") = true :=
  ⟨by decide,
   Config.Validate_exclusion_correct Rules.sample Config.scenario "Telegram" (by decide)⟩

/-- C3, refuted as stated: on the scenario configuration, under rules for which an empty
required string and a negative bounded number do fail, `Validate()` does not report two
violations and `Validate("Telegram")` does not report one. -/
theorem Config.Validate_scenario_counts_refuted :
    ¬ ((violations (Config.Validate Rules.sample (some Config.scenario) []).2).length = 2 ∧
       (violations (Config.Validate Rules.sample (some Config.scenario) ["Telegram"]).2).length
         = 1) := by
  decide

/-- C3, amended: on the scenario configuration `Validate()` and `Validate("Telegram")`
both return nil and report no violation, whatever the rules mean: the schema declares no
constraint on the threshold or on the bot token. -/
theorem Config.Validate_scenario_no_violation (rules : Rules) :
    (Config.Validate rules (some Config.scenario) []).2 = none ∧
    (violations (Config.Validate rules (some Config.scenario) []).2).length = 0 ∧
    (Config.Validate rules (some Config.scenario) ["Telegram"]).2 = none ∧
    (violations (Config.Validate rules (some Config.scenario) ["Telegram"]).2).length = 0 := by
  rw [Config.Validate_some, Config.Validate_some]
  exact ⟨rfl, rfl, rfl, rfl⟩

/-- C8 (field-to-key table): the ten root fields map, in declaration order, to the
documented keys; Config and its ten sections make eleven tables, and within each table no
two fields share a key, no two share a name, and every key differs from its field name. -/
theorem Config.keyTables_bijective (c : Config) :
    c.reflect.keyTable =
      [ ("Endpoints", "rpc_and_lcd_endpoints"), ("ValDetails", "validator_details"),
        ("EnableAlerts", "enable_alerts"), ("RegularStatusAlerts", "regular_status_alerts"),
        ("AlerterPreferences", "alerter_preferences"),
        ("AlertingThresholds", "alerting_threholds"), ("Scraper", "scraper"),
        ("Telegram", "telegram"), ("SendGrid", "sendgrid"), ("InfluxDB", "influxdb") ] ∧
    c.reflect.keyTable.map Prod.fst = Config.fieldNames ∧
    c.keyTables.map List.length = [10, 7, 5, 2, 1, 9, 4, 4, 2, 4, 5] ∧
    ∀ t ∈ c.keyTables,
      (t.map Prod.snd).Nodup ∧ (t.map Prod.fst).Nodup ∧ ∀ p ∈ t, p.2 ≠ p.1 := by
  have h : c.keyTables = Config.zero.keyTables := rfl
  refine ⟨rfl, rfl, rfl, ?_⟩
  rw [h]
  decide

/-- C9 (validation is vacuous): for every non-nil Config, every exclusion list and every
meaning of the rules, `Validate` returns no error, because no field of the schema declares
a constraint. -/
theorem Config.Validate_vacuous (rules : Rules) (c : Config) (e : List String) :
    (Config.Validate rules (some c) e).2 = none := by
  rw [Config.Validate_some]

/-- C10 (exclusion is monotone): excluding more names never adds a violation; every
report is contained in the report of `Validate()` with no exclusions; and excluding only
names that are not top-level fields of Config gives the report of `Validate()`. -/
theorem Config.Validate_exclusion_monotone (rules : Rules) (c : Config) :
    (∀ e e' : List String, e ⊆ e' →
      violations (Config.Validate rules (some c) e').2 ⊆
        violations (Config.Validate rules (some c) e).2) ∧
    (∀ e : List String,
      violations (Config.Validate rules (some c) e).2 ⊆
        violations (Config.Validate rules (some c) []).2) ∧
    (∀ e : List String, (∀ n ∈ e, n ∉ Config.fieldNames) →
      violations (Config.Validate rules (some c) e).2 =
        violations (Config.Validate rules (some c) []).2) := by
  have mono : ∀ e e' : List String, e ⊆ e' →
      violations (Config.Validate rules (some c) e').2 ⊆
        violations (Config.Validate rules (some c) e).2 := by
    intro e e' h
    rw [Config.Validate_pass, Config.Validate_pass]
    exact (go_mono (New rules) _ _ (List.map_subset _ h) "Config." c.reflect.fields).subset
  refine ⟨mono, fun e => mono [] e (List.nil_subset e), ?_⟩
  intro e _
  rw [Config.Validate_some, Config.Validate_some]

/-- C10 at a concrete input: the scenario configuration with `Telegram` excluded, then
`Telegram` and `SendGrid`, and with a name that is no field of Config. -/
theorem Config.Validate_exclusion_monotone_witness :
    violations (Config.Validate Rules.sample (some Config.scenario) ["Telegram", "SendGrid"]).2 ⊆
      violations (Config.Validate Rules.sample (some Config.scenario) ["Telegram"]).2 ∧
    violations (Config.Validate Rules.sample (some Config.scenario) ["NoSuchField"]).2 =
      violations (Config.Validate Rules.sample (some Config.scenario) []).2 :=
  ⟨(Config.Validate_exclusion_monotone Rules.sample Config.scenario).1
      ["Telegram"] ["Telegram", "SendGrid"] (by decide),
   (Config.Validate_exclusion_monotone Rules.sample Config.scenario).2.2
      ["NoSuchField"] (by decide)⟩

/-- C4 (only a validated configuration is returned): whenever `ReadFromFile` returns, the
returned error is nil, the returned pointer is non-nil, and `Validate()` with no
exclusions on the returned Config yields no error. -/
theorem ReadFromFile_returns_validated (env : Env) (p : Option Config) (err : Option Error)
    (h : ReadFromFile env = .ret (p, err)) :
    err = none ∧ ∃ c, p = some c ∧ (Config.Validate env.rules (some c) []).2 = none := by
  unfold ReadFromFile at h
  split at h
  · exact absurd h (by simp)
  · split at h
    · exact absurd h (by simp)
    · split at h
      · exact absurd h (by simp)
      · rename_i cfg _
        rw [Config.Validate_some] at h
        simp only [Outcome.ret.injEq, Prod.mk.injEq] at h
        exact ⟨h.2.symm, cfg, h.1.symm, by rw [Config.Validate_some]⟩

/-- C4 at a concrete input: the sample environment, where `ReadFromFile` returns the
scenario configuration. -/
theorem ReadFromFile_returns_validated_witness :
    ReadFromFile Env.sample = .ret (some Config.scenario, none) ∧
    ((none : Option Error) = none ∧
      ∃ c, some Config.scenario = some c ∧
        (Config.Validate Env.sample.rules (some c) []).2 = none) :=
  ⟨rfl, ReadFromFile_returns_validated Env.sample (some Config.scenario) none rfl⟩

/-- C5 (fatal on failure): when the home-directory lookup fails, or no file named `config`
is in either search directory, or the file found does not parse, or the parsed content
does not decode into Config, `ReadFromFile` ends the process with status 1 and returns
nothing; in particular it does not return a zero-valued Config. -/
theorem ReadFromFile_fatal_on_failure (env : Env) (h : env.fails) :
    (∃ why, ReadFromFile env = .exit 1 why) ∧
    (∀ r, ReadFromFile env ≠ .ret r) ∧
    ReadFromFile env ≠ .ret (some Config.zero, none) := by
  have main : ∃ why, ReadFromFile env = .exit 1 why := by
    rcases h with ⟨err, h⟩ | ⟨usr, hu, h1, h2⟩ | ⟨usr, content, err, hu, hf, hp⟩ |
      ⟨usr, content, tree, err, hu, hf, hp, hd⟩
    · exact ⟨.user err, by simp [ReadFromFile, h]⟩
    · have hfind : (ReadFromFile.viper usr).findConfigFile env = none := by
        rw [ReadFromFile.viper_eq]
        simp [Viper.findConfigFile, List.findSome?, h1, h2]
      exact ⟨.read (.ConfigFileNotFoundError (ReadFromFile.viper usr).configName
          (ReadFromFile.viper usr).configPaths),
        by simp [ReadFromFile, hu, Viper.ReadInConfig, hfind]⟩
    · exact ⟨.read (.ConfigParseError err),
        by simp [ReadFromFile, hu, Viper.ReadInConfig, hf, hp]⟩
    · exact ⟨.unmarshal err,
        by simp [ReadFromFile, hu, Viper.ReadInConfig, hf, hp, Viper.Unmarshal, hd]⟩
  obtain ⟨why, hw⟩ := main
  refine ⟨⟨why, hw⟩, ?_, ?_⟩
  · intro r hr
    rw [hw] at hr
    exact absurd hr (by simp)
  · intro hr
    rw [hw] at hr
    exact absurd hr (by simp)

/-- C5 at a concrete input: a home directory is found but no file named `config` is in
either search directory. -/
theorem ReadFromFile_fatal_on_failure_witness :
    Env.empty.fails ∧
    ((∃ why, ReadFromFile Env.empty = .exit 1 why) ∧
     (∀ r, ReadFromFile Env.empty ≠ .ret r) ∧
     ReadFromFile Env.empty ≠ .ret (some Config.zero, none)) :=
  have hf : Env.empty.fails := Or.inr (Or.inl ⟨{ HomeDir := "/home/alice" }, rfl, rfl, rfl⟩)
  ⟨hf, ReadFromFile_fatal_on_failure Env.empty hf⟩

/-- C6 (search precedence): for every home directory `H`, `ReadFromFile` registers exactly
the two candidate directories `.` and `H` joined with `.matic-jagar/config`, in that order,
with base name `config`. In an environment whose home directory is `H`: when a file is in
both directories, `ReadFromFile` finds the one in the current directory and its result is
what parsing and decoding that file gives; when only the home-relative directory has one,
that one is loaded; when neither has one, the process ends reporting the name and the two
directories searched. -/
theorem ReadFromFile_search_precedence (H : String) :
    (ReadFromFile.viper { HomeDir := H }).configPaths =
      [".", path.Join [H, ".matic-jagar/config"]] ∧
    (ReadFromFile.viper { HomeDir := H }).configName = "config" ∧
    ∀ env : Env, env.Current = .ok { HomeDir := H } →
      (∀ here there : String,
        env.configFile "." "config" = some here →
        env.configFile (path.Join [H, ".matic-jagar/config"]) "config" = some there →
        (ReadFromFile.viper { HomeDir := H }).findConfigFile env = some here ∧
        ReadFromFile env =
          (match env.parse here with
           | .error msg => .exit 1 (.read (.ConfigParseError msg))
           | .ok tree =>
             match env.decode tree with
             | .error err => .exit 1 (.unmarshal err)
             | .ok cfg => .ret (some cfg, none))) ∧
      (∀ there : String,
        env.configFile "." "config" = none →
        env.configFile (path.Join [H, ".matic-jagar/config"]) "config" = some there →
        ReadFromFile env =
          (match env.parse there with
           | .error msg => .exit 1 (.read (.ConfigParseError msg))
           | .ok tree =>
             match env.decode tree with
             | .error err => .exit 1 (.unmarshal err)
             | .ok cfg => .ret (some cfg, none))) ∧
      (env.configFile "." "config" = none →
        env.configFile (path.Join [H, ".matic-jagar/config"]) "config" = none →
        ReadFromFile env =
          .exit 1 (.read (.ConfigFileNotFoundError "config"
            [".", path.Join [H, ".matic-jagar/config"]]))) := by
  have load : ∀ (env : Env) (content : String), env.Current = .ok { HomeDir := H } →
      (ReadFromFile.viper { HomeDir := H }).findConfigFile env = some content →
      ReadFromFile env =
        (match env.parse content with
         | .error msg => .exit 1 (.read (.ConfigParseError msg))
         | .ok tree =>
           match env.decode tree with
           | .error err => .exit 1 (.unmarshal err)
           | .ok cfg => .ret (some cfg, none)) := by
    intro env content hu hfind
    unfold ReadFromFile
    simp only [hu, Viper.ReadInConfig, hfind]
    cases hp : env.parse content with
    | error msg => rfl
    | ok tree =>
      simp only [Viper.Unmarshal, Option.getD_some]
      cases hd : env.decode tree with
      | error err => rfl
      | ok cfg =>
        simp only [Config.Validate_some]
  refine ⟨by rw [ReadFromFile.viper_eq], by rw [ReadFromFile.viper_eq], ?_⟩
  intro env hu
  refine ⟨?_, ?_, ?_⟩
  · intro here there h1 _
    have hfind : (ReadFromFile.viper { HomeDir := H }).findConfigFile env = some here := by
      rw [ReadFromFile.viper_eq]
      simp [Viper.findConfigFile, List.findSome?, h1]
    exact ⟨hfind, load env here hu hfind⟩
  · intro there h1 h2
    have hfind : (ReadFromFile.viper { HomeDir := H }).findConfigFile env = some there := by
      rw [ReadFromFile.viper_eq]
      simp [Viper.findConfigFile, List.findSome?, h1, h2]
    exact load env there hu hfind
  · intro h1 h2
    have hfind : (ReadFromFile.viper { HomeDir := H }).findConfigFile env = none := by
      rw [ReadFromFile.viper_eq]
      simp [Viper.findConfigFile, List.findSome?, h1, h2]
    unfold ReadFromFile
    simp only [hu, Viper.ReadInConfig, hfind]
    rw [ReadFromFile.viper_eq]

/-- C6 at a concrete input: home directory `/home/alice` and a file in both directories;
`ReadFromFile` returns what the file of the current directory decodes to, and with no file
at all it ends the process naming the two directories. -/
theorem ReadFromFile_search_precedence_witness :
    (ReadFromFile.viper { HomeDir := "/home/alice" }).configPaths =
      [".", "/home/alice/.matic-jagar/config"] ∧
    ((ReadFromFile.viper { HomeDir := "/home/alice" }).findConfigFile Env.both = some "here" ∧
      ReadFromFile Env.both = .ret (some Config.scenario, none)) ∧
    ReadFromFile Env.empty =
      .exit 1 (.read (.ConfigFileNotFoundError "config"
        [".", "/home/alice/.matic-jagar/config"])) :=
  ⟨(ReadFromFile_search_precedence "/home/alice").1,
   ((ReadFromFile_search_precedence "/home/alice").2.2 Env.both rfl).1 "here" "there" rfl rfl,
   ((ReadFromFile_search_precedence "/home/alice").2.2 Env.empty rfl).2.2 rfl rfl⟩

end config
